import Mathlib

/-!
Verification development for the async web monitoring pipeline
(`async_poller.py`, `dbhelper.py`): a shallow embedding of the
poll → buffer → batch-flush pipeline, with theorems about its
outcome routing, batching and scheduling behaviour.
-/

namespace AsyncWebMon

/-- Python values that appear in the `polling_results` dict built by
`fetch_page_data`: strings, ints, floats (modelled exactly as rationals),
booleans, `None`, and 1-tuples (the only tuple the source ever builds is
the 1-tuple `(f-string,)` produced by the trailing comma on the `error`
assignment). -/
inductive Value where
  | str (s : String)
  | int (n : Nat)
  | rat (q : ℚ)
  | bool (b : Bool)
  | pyNone
  | tup1 (v : Value)
deriving DecidableEq

/-- A Python dict with string keys, in insertion order (Python 3 dicts
preserve insertion order). -/
abbrev PyDict := List (String × Value)

/-- `d[k] = v` on a Python dict: update in place when the key exists,
append otherwise. -/
def dictSet (d : PyDict) (k : String) (v : Value) : PyDict :=
  if d.any (fun p => p.1 == k) then
    d.map (fun p => if p.1 == k then (p.1, v) else p)
  else d ++ [(k, v)]

/-- Key lookup on a Python dict. -/
def dictGet (k : String) (d : PyDict) : Option Value :=
  (d.find? (fun p => p.1 == k)).map Prod.snd

/-- The keys of a Python dict, in insertion order. -/
def dictKeys (d : PyDict) : List String := d.map Prod.fst

/-! ### Regular expressions

`build_tasks` compiles `entry[2]` with `re.compile(entry[2], re.DOTALL)` and
`parse_web_page` calls `pattern.search(...)`.  We model the compiled pattern
as an abstract syntax tree plus the `DOTALL` flag; `search` is unanchored
(it tries every start position), and `.` matches any character except a
newline unless `DOTALL` is set. -/

inductive Reg where
  | fail
  | eps
  | char (c : Char)
  | dot
  | alt (r s : Reg)
  | cat (r s : Reg)
  | star (r : Reg)
deriving DecidableEq

/-- Declarative matching semantics of a regex against a whole word,
parametrised by the `DOTALL` flag `da`: `.` matches a newline only when
`da = true`. -/
inductive RMatch (da : Bool) : Reg → List Char → Prop where
  | eps : RMatch da .eps []
  | char (c : Char) : RMatch da (.char c) [c]
  | dot (c : Char) : da = true ∨ c ≠ '\n' → RMatch da .dot [c]
  | altL {r s w} : RMatch da r w → RMatch da (.alt r s) w
  | altR {r s w} : RMatch da s w → RMatch da (.alt r s) w
  | cat {r s w₁ w₂} : RMatch da r w₁ → RMatch da s w₂ →
      RMatch da (.cat r s) (w₁ ++ w₂)
  | starNil {r} : RMatch da (.star r) []
  | starCons {r w₁ w₂} : RMatch da r w₁ → RMatch da (.star r) w₂ →
      RMatch da (.star r) (w₁ ++ w₂)

/-- Whether a regex accepts the empty word. -/
def nullable : Reg → Bool
  | .fail => false
  | .eps => true
  | .char _ => false
  | .dot => false
  | .alt r s => nullable r || nullable s
  | .cat r s => nullable r && nullable s
  | .star _ => true

/-- Brzozowski derivative of a regex by a character, under `DOTALL` flag
`da`. -/
def deriv (da : Bool) (c : Char) : Reg → Reg
  | .fail => .fail
  | .eps => .fail
  | .char d => if c = d then .eps else .fail
  | .dot => if da = true ∨ c ≠ '\n' then .eps else .fail
  | .alt r s => .alt (deriv da c r) (deriv da c s)
  | .cat r s =>
    if nullable r then .alt (.cat (deriv da c r) s) (deriv da c s)
    else .cat (deriv da c r) s
  | .star r => .cat (deriv da c r) (.star r)

/-- Does some (possibly empty) initial segment of `s` match `r`? -/
def searchHere (da : Bool) (r : Reg) : List Char → Bool
  | [] => nullable r
  | c :: s => nullable r || searchHere da (deriv da c r) s

/-- Unanchored search, as performed by `pattern.search`: does `r` match
some substring of `s`, starting at any position? -/
def search (da : Bool) (r : Reg) : List Char → Bool
  | [] => searchHere da r []
  | c :: s => searchHere da r (c :: s) || search da r s

/-! ### UTF-8 decoding

`parse_web_page` decodes the body with `data.decode` with codec `utf` (an alias of
`utf-8`, strict errors): a decode failure raises `UnicodeDecodeError`.
We model the byte string as a `List Nat` and implement the standard strict
UTF-8 decoding table (rejecting stray continuation bytes, overlong forms,
surrogates, and code points above `0x10FFFF`). -/

def utf8Decode : List Nat → Option (List Char)
  | [] => some []
  | b1 :: rest =>
    if b1 < 128 then
      match utf8Decode rest with
      | some cs => some (Char.ofNat b1 :: cs)
      | none => none
    else if 194 ≤ b1 ∧ b1 ≤ 223 then
      match rest with
      | b2 :: rest2 =>
        if 128 ≤ b2 ∧ b2 ≤ 191 then
          match utf8Decode rest2 with
          | some cs => some (Char.ofNat ((b1 - 192) * 64 + (b2 - 128)) :: cs)
          | none => none
        else none
      | [] => none
    else if 224 ≤ b1 ∧ b1 ≤ 239 then
      match rest with
      | b2 :: b3 :: rest2 =>
        if (if b1 = 224 then 160 ≤ b2 ∧ b2 ≤ 191
            else if b1 = 237 then 128 ≤ b2 ∧ b2 ≤ 159
            else 128 ≤ b2 ∧ b2 ≤ 191) ∧ 128 ≤ b3 ∧ b3 ≤ 191 then
          match utf8Decode rest2 with
          | some cs => some (Char.ofNat
              ((b1 - 224) * 4096 + (b2 - 128) * 64 + (b3 - 128)) :: cs)
          | none => none
        else none
      | _ => none
    else if 240 ≤ b1 ∧ b1 ≤ 244 then
      match rest with
      | b2 :: b3 :: b4 :: rest2 =>
        if (if b1 = 240 then 144 ≤ b2 ∧ b2 ≤ 191
            else if b1 = 244 then 128 ≤ b2 ∧ b2 ≤ 143
            else 128 ≤ b2 ∧ b2 ≤ 191) ∧
           (128 ≤ b3 ∧ b3 ≤ 191) ∧ (128 ≤ b4 ∧ b4 ≤ 191) then
          match utf8Decode rest2 with
          | some cs => some (Char.ofNat
              ((b1 - 240) * 262144 + (b2 - 128) * 4096 +
               (b3 - 128) * 64 + (b4 - 128)) :: cs)
          | none => none
        else none
      | _ => none
    else none

/-! ### Compiled patterns and `parse_web_page` -/

/-- A compiled `re.Pattern`: the syntax tree of the pattern together with the
flags it was compiled with (only `re.DOTALL` is ever used). -/
structure CompiledPattern where
  ast : Reg
  dotall : Bool
deriving DecidableEq

/-- `re.compile(source, re.DOTALL)` as done in `build_tasks`. -/
def re_compile_dotall (r : Reg) : CompiledPattern :=
  { ast := r, dotall := true }

/-- A Python exception, reduced to what `fetch_page_data` renders of it:
the `str(type(error))` text and the `str(error)` message. -/
structure PyExc where
  cls : String
  msg : String
deriving DecidableEq

/-- The f-string rendering `type(error)` then `--` then the message, as
built by `fetch_page_data`. -/
def errToStr (e : PyExc) : String := e.cls ++ "--" ++ e.msg

/-- The `UnicodeDecodeError` raised by `data.decode` on a
non-UTF-8 body. -/
def unicodeDecodeError : PyExc :=
  { cls := "<class UnicodeDecodeError>",
    msg := "utf-8 codec cannot decode byte" }

/-- `parse_web_page(pattern, data)`: `None` when no pattern is configured;
otherwise decode the body as UTF-8 and report whether the pattern matches
anywhere (a raised `UnicodeDecodeError` is modelled as `Except.error`). -/
def parse_web_page (pattern : Option CompiledPattern) (data : List Nat) :
    Except PyExc (Option Bool) :=
  match pattern with
  | none => .ok none
  | some p =>
    match utf8Decode data with
    | none => .error unicodeDecodeError
    | some s =>
      if search p.dotall p.ast s then .ok (some true) else .ok (some false)

/-! ### `fetch_page_data` -/

/-- The two shared streams: `result_queue` and `error_queue`, each an
ordered FIFO (append at the right, drain from the left). -/
structure FetchState where
  result_queue : List PyDict
  error_queue : List PyDict
deriving DecidableEq

/-- The environment of one fetch attempt: the outcome of
`session.get(...)` + `response.read()` (either an exception or a status
code and body bytes), the elapsed wall-clock time at the point where
the `duration` entry of `polling_results` is computed (just after the read), and the
elapsed time at the point where the `except` branch computes its return
value. -/
structure FetchEnv where
  net : Except PyExc (Nat × List Nat)
  readElapsed : ℚ
  failElapsed : ℚ

/-- The Python value stored under `regex_found`: the return value of
`parse_web_page` (`None`, `True` or `False`). -/
def optBoolVal : Option Bool → Value
  | none => .pyNone
  | some b => .bool b

/-- One call of `fetch_page_data(session, url, result_queue, error_queue,
regex, timeout)`: builds the `polling_results` dict, routes it to exactly
one of the two queues, and returns the duration used by `website_poll` for
interval self-correction. -/
def fetch_page_data (url : String) (startTs : ℚ) (env : FetchEnv)
    (regex : Option CompiledPattern) (st : FetchState) : FetchState × ℚ :=
  let pr0 : PyDict := [("url", .str url), ("timestamp", .rat startTs)]
  match env.net with
  | .error e =>
    let pr := dictSet pr0 "error" (.tup1 (.str (errToStr e)))
    (⟨st.result_queue, st.error_queue ++ [pr]⟩, env.failElapsed)
  | .ok (status, content) =>
    let pr1 := dictSet pr0 "duration" (.rat env.readElapsed)
    let pr2 := dictSet pr1 "status_code" (.int status)
    match parse_web_page regex content with
    | .ok rf =>
      let pr3 := dictSet pr2 "regex_found" (optBoolVal rf)
      (⟨st.result_queue ++ [pr3], st.error_queue⟩, env.readElapsed)
    | .error e =>
      let pr := dictSet pr2 "error" (.tup1 (.str (errToStr e)))
      (⟨st.result_queue, st.error_queue ++ [pr]⟩, env.failElapsed)

/-- The data of one fetch attempt by some Poller: target url, start
timestamp, attempt environment, and the compiled pattern of the target. -/
structure Attempt where
  url : String
  startTs : ℚ
  env : FetchEnv
  regex : Option CompiledPattern

/-- A sequence of fetch attempts across all targets, applied to the shared
streams in order. -/
def run_attempts (st : FetchState) : List Attempt → FetchState
  | [] => st
  | a :: rest =>
    run_attempts (fetch_page_data a.url a.startTs a.env a.regex st).1 rest

/-! ### `website_poll` -/

/-- The sleep computed at the bottom of each `website_poll` cycle:
`max(0.1, interval - duration)`. -/
def website_poll_sleep (interval duration : ℚ) : ℚ :=
  max 0.1 (interval - duration)

/-- One cycle of `website_poll`: await `fetch_page_data`, then sleep
`max(0.1, interval - duration)`. Returns the new stream state and the
sleep length. -/
def website_poll_cycle (interval : ℚ) (url : String) (startTs : ℚ)
    (env : FetchEnv) (regex : Option CompiledPattern) (st : FetchState) :
    FetchState × ℚ :=
  let res := fetch_page_data url startTs env regex st
  (res.1, website_poll_sleep interval res.2)

/-! ### `write_to_db` and `bulk_dump` -/

/-- `write_to_db(pool, values_deck, sql)`: execute the insert statement
once per record, sequentially, stopping at the first database error.
`execRow` models `cur.execute(sql, values)` for one record. -/
def write_to_db {α ε : Type} (execRow : α → Except ε Unit) :
    List α → Except ε Unit
  | [] => .ok ()
  | v :: vs =>
    match execRow v with
    | .ok _ => write_to_db execRow vs
    | .error e => .error e

/-- The drain loop of `bulk_dump`:
`while queue: dump_list.append(queue.popleft())`.  Returns the dump list
and the remaining queue. There is no suspension point inside the loop, so
no other task can interleave with it. -/
def drainLoop {α : Type} (dump_list q : List α) : List α × List α :=
  match q with
  | [] => (dump_list, [])
  | x :: xs => drainLoop (dump_list ++ [x]) xs

/-- Draining a queue starting from the empty `dump_list = []`. -/
def drain {α : Type} (q : List α) : List α × List α := drainLoop [] q

/-- The observable effects of one wake-up of `bulk_dump`. -/
structure FlushResult (α ε : Type) where
  calls : List (List α)
  queueAfter : List α
  outcome : Except ε Unit

/-- One wake-up of the `bulk_dump` loop, with queue contents `q`:
if the queue is empty, `continue` (no call to the sink, queue untouched);
otherwise drain the whole queue into `dump_list` and pass it to
`write_to_db` in one call.  `pushedLater` are the items producers append
during the `await write_to_db(...)` suspension: they stay on the queue for
the next cycle, and a drained batch is never re-queued, even when
`write_to_db` fails. -/
def bulk_dump_cycle {α ε : Type} (execRow : α → Except ε Unit)
    (q pushedLater : List α) : FlushResult α ε :=
  if q.isEmpty then
    { calls := [], queueAfter := q, outcome := .ok () }
  else
    let dump_list := (drain q).1
    { calls := [dump_list],
      queueAfter := pushedLater,
      outcome := write_to_db execRow dump_list }

/-! ### `poll` and `build_tasks` wiring -/

/-- `aiohttp.ClientTimeout(total=None, sock_connect=web_timeout,
sock_read=web_timeout)` as built in `poll`. -/
structure ClientTimeoutCfg where
  total : Option ℚ
  sock_connect : Option ℚ
  sock_read : Option ℚ
deriving DecidableEq

/-- One entry of the url list passed to `poll`: `(url, interval)` or
`(url, interval, pattern_source)`. -/
structure UrlEntry where
  url : String
  interval : ℚ
  pattern : Option Reg

/-- The parameters one polling task is created with by `build_tasks`:
the keyword arguments of `website_poll`, including the per-request
`timeout` that `website_poll` forwards to `fetch_page_data` and that
`fetch_page_data` passes to `session.get`. -/
structure PollTask where
  url : String
  interval : ℚ
  regex : Option CompiledPattern
  timeout : ℚ

/-- `build_tasks(urldb, session, result_queue, error_queue)`: one task per
entry; `entry[2]` is compiled with `re.DOTALL` when present.  `timeout` is
not among the arguments passed to `website_poll`, so every task gets
the default value `4` of `website_poll`. -/
def build_tasks (urldb : List UrlEntry) : List PollTask :=
  urldb.map (fun e =>
    { url := e.url, interval := e.interval,
      regex := e.pattern.map re_compile_dotall, timeout := 4 })

/-- The static wiring performed by `poll(db, urls, web_timeout,
dump_interval)`: the session-level timeout configuration and the polling
tasks. -/
structure PollSetup where
  sessionTimeout : ClientTimeoutCfg
  tasks : List PollTask

/-- `poll` builds the session timeout from `web_timeout` and the tasks via
`build_tasks` (to which `web_timeout` is not passed). -/
def poll_setup (web_timeout : ℚ) (urldb : List UrlEntry) : PollSetup :=
  { sessionTimeout :=
      { total := none, sock_connect := some web_timeout,
        sock_read := some web_timeout },
    tasks := build_tasks urldb }

/-- The named parameters bound by `DBHelper.RESULT_SQL`:
`(url, status_code, regex_found, timestamp, duration)`. -/
def result_sql_params : List String :=
  ["url", "status_code", "regex_found", "timestamp", "duration"]

/-- The named parameters bound by `DBHelper.ERROR_SQL`:
`(url, error, timestamp)`. -/
def error_sql_params : List String :=
  ["url", "error", "timestamp"]

/-! ### Correctness of the regex search -/

theorem not_rmatch_fail {da : Bool} {w : List Char} : ¬ RMatch da .fail w :=
  fun h => nomatch h

theorem nullable_of_rmatch_nil {da : Bool} {r : Reg} {w : List Char}
    (h : RMatch da r w) : w = [] → nullable r = true := by
  induction h with
  | eps => intro _; rfl
  | char c => intro hw; simp at hw
  | dot c _ => intro hw; simp at hw
  | altL _ ih => intro hw; simp [nullable, ih hw]
  | altR _ ih => intro hw; simp [nullable, ih hw]
  | cat h1 h2 ih1 ih2 =>
    intro hw
    rcases List.append_eq_nil.mp hw with ⟨e1, e2⟩
    simp [nullable, ih1 e1, ih2 e2]
  | starNil => intro _; rfl
  | starCons _ _ _ _ => intro _; rfl

theorem rmatch_nil_of_nullable {da : Bool} {r : Reg}
    (h : nullable r = true) : RMatch da r [] := by
  induction r with
  | fail => simp [nullable] at h
  | eps => exact .eps
  | char c => simp [nullable] at h
  | dot => simp [nullable] at h
  | alt r s ihr ihs =>
    rcases Bool.or_eq_true_iff.mp h with h | h
    · exact .altL (ihr h)
    · exact .altR (ihs h)
  | cat r s ihr ihs =>
    rcases Bool.and_eq_true_iff.mp h with ⟨h1, h2⟩
    exact RMatch.cat (ihr h1) (ihs h2)
  | star r _ => exact .starNil

theorem rmatch_of_deriv {da : Bool} {c : Char} {r : Reg} :
    ∀ {s : List Char}, RMatch da (deriv da c r) s → RMatch da r (c :: s) := by
  induction r with
  | fail => intro s h; exact absurd h not_rmatch_fail
  | eps => intro s h; exact absurd h not_rmatch_fail
  | char d =>
    intro s h
    by_cases hc : c = d
    · simp only [deriv, if_pos hc] at h
      cases h
      subst hc
      exact RMatch.char c
    · simp only [deriv, if_neg hc] at h
      exact absurd h not_rmatch_fail
  | dot =>
    intro s h
    by_cases hc : da = true ∨ c ≠ '\n'
    · simp only [deriv, if_pos hc] at h
      cases h
      exact RMatch.dot c hc
    · simp only [deriv, if_neg hc] at h
      exact absurd h not_rmatch_fail
  | alt r₁ r₂ ih1 ih2 =>
    intro s h
    cases h with
    | altL h => exact .altL (ih1 h)
    | altR h => exact .altR (ih2 h)
  | cat r₁ r₂ ih1 ih2 =>
    intro s h
    by_cases hn : nullable r₁ = true
    · simp only [deriv, if_pos hn] at h
      cases h with
      | altL h =>
        cases h with
        | cat h1 h2 => exact RMatch.cat (ih1 h1) h2
      | altR h => exact RMatch.cat (rmatch_nil_of_nullable hn) (ih2 h)
    · simp only [deriv, if_neg hn] at h
      cases h with
      | cat h1 h2 => exact RMatch.cat (ih1 h1) h2
  | star r₁ ih =>
    intro s h
    cases h with
    | cat h1 h2 => exact RMatch.starCons (ih h1) h2

theorem deriv_of_rmatch {da : Bool} {r : Reg} {w : List Char}
    (h : RMatch da r w) :
    ∀ {c : Char} {s : List Char}, w = c :: s → RMatch da (deriv da c r) s := by
  induction h with
  | eps => intro c s hw; simp at hw
  | char d =>
    intro c s hw
    cases hw
    simp only [deriv, if_pos rfl]
    exact .eps
  | dot d hcond =>
    intro c s hw
    cases hw
    simp only [deriv, if_pos hcond]
    exact .eps
  | altL h ih =>
    intro c s hw
    exact .altL (ih hw)
  | altR h ih =>
    intro c s hw
    exact .altR (ih hw)
  | cat h1 h2 ih1 ih2 =>
    rename_i r₁ r₂ w₁ w₂
    intro c s hw
    cases w₁ with
    | nil =>
      have hn : nullable r₁ = true := nullable_of_rmatch_nil h1 rfl
      simp only [deriv, if_pos hn]
      exact .altR (ih2 (by simpa using hw))
    | cons x xs =>
      injection hw with hx hs
      subst hx
      subst hs
      have d1 := ih1 (rfl : x :: xs = x :: xs)
      by_cases hn : nullable r₁ = true
      · simp only [deriv, if_pos hn]
        exact .altL (.cat d1 h2)
      · simp only [deriv, if_neg hn]
        exact .cat d1 h2
  | starNil => intro c s hw; simp at hw
  | starCons h1 h2 ih1 ih2 =>
    rename_i r₁ w₁ w₂
    intro c s hw
    cases w₁ with
    | nil => exact ih2 (by simpa using hw)
    | cons x xs =>
      injection hw with hx hs
      subst hx
      subst hs
      simp only [deriv]
      exact .cat (ih1 rfl) h2

theorem searchHere_iff {da : Bool} {s : List Char} :
    ∀ {r : Reg}, searchHere da r s = true ↔
      ∃ p q, s = p ++ q ∧ RMatch da r p := by
  induction s with
  | nil =>
    intro r
    constructor
    · intro h
      exact ⟨[], [], rfl, rmatch_nil_of_nullable h⟩
    · rintro ⟨p, q, hpq, hm⟩
      rcases List.append_eq_nil.mp hpq.symm with ⟨hp, _⟩
      exact nullable_of_rmatch_nil hm hp
  | cons c s ih =>
    intro r
    constructor
    · intro h
      rcases Bool.or_eq_true_iff.mp h with h | h
      · exact ⟨[], c :: s, rfl, rmatch_nil_of_nullable h⟩
      · rcases ih.mp h with ⟨p, q, hpq, hm⟩
        exact ⟨c :: p, q, by simp [hpq], rmatch_of_deriv hm⟩
    · rintro ⟨p, q, hpq, hm⟩
      cases p with
      | nil =>
        have : nullable r = true := nullable_of_rmatch_nil hm rfl
        simp [searchHere, this]
      | cons x xs =>
        injection hpq with hx hs
        subst hx
        have : searchHere da (deriv da c r) s = true :=
          ih.mpr ⟨xs, q, hs, deriv_of_rmatch hm rfl⟩
        simp [searchHere, this]

theorem search_iff {da : Bool} {r : Reg} {s : List Char} :
    search da r s = true ↔
      ∃ pre mid post, s = pre ++ mid ++ post ∧ RMatch da r mid := by
  induction s with
  | nil =>
    constructor
    · intro h
      rcases searchHere_iff.mp h with ⟨p, q, hpq, hm⟩
      exact ⟨[], p, q, by simpa using hpq, hm⟩
    · rintro ⟨pre, mid, post, hpq, hm⟩
      rcases List.append_eq_nil.mp hpq.symm with ⟨h1, hpost⟩
      rcases List.append_eq_nil.mp h1 with ⟨hpre, hmid⟩
      subst hmid
      exact searchHere_iff.mpr ⟨[], [], rfl, hm⟩
  | cons c s ih =>
    constructor
    · intro h
      rcases Bool.or_eq_true_iff.mp h with h | h
      · rcases searchHere_iff.mp h with ⟨p, q, hpq, hm⟩
        exact ⟨[], p, q, by simpa using hpq, hm⟩
      · rcases ih.mp h with ⟨pre, mid, post, hpq, hm⟩
        exact ⟨c :: pre, mid, post, by simp [hpq], hm⟩
    · rintro ⟨pre, mid, post, hpq, hm⟩
      cases pre with
      | nil =>
        have : searchHere da r (c :: s) = true :=
          searchHere_iff.mpr ⟨mid, post, by simpa using hpq, hm⟩
        simp [search, this]
      | cons x xs =>
        injection hpq with hx hs
        subst hx
        have : search da r s = true :=
          ih.mpr ⟨xs, mid, post, by simpa using hs, hm⟩
        simp [search, this]

/-! ### Unfolding lemmas for `fetch_page_data` -/

theorem fetch_net_error (url : String) (ts : ℚ) (e : PyExc) (re fe : ℚ)
    (rgx : Option CompiledPattern) (st : FetchState) :
    fetch_page_data url ts ⟨.error e, re, fe⟩ rgx st
      = (⟨st.result_queue,
          st.error_queue ++
            [[("url", .str url), ("timestamp", .rat ts),
              ("error", .tup1 (.str (errToStr e)))]]⟩, fe) := rfl

theorem fetch_parse_ok (url : String) (ts : ℚ) (status : Nat)
    (content : List Nat) (re fe : ℚ) (rgx : Option CompiledPattern)
    (st : FetchState) (rf : Option Bool)
    (hp : parse_web_page rgx content = .ok rf) :
    fetch_page_data url ts ⟨.ok (status, content), re, fe⟩ rgx st
      = (⟨st.result_queue ++
            [[("url", .str url), ("timestamp", .rat ts),
              ("duration", .rat re), ("status_code", .int status),
              ("regex_found", optBoolVal rf)]],
          st.error_queue⟩, re) := by
  simp only [fetch_page_data]
  rw [hp]
  rfl

theorem fetch_parse_error (url : String) (ts : ℚ) (status : Nat)
    (content : List Nat) (re fe : ℚ) (rgx : Option CompiledPattern)
    (st : FetchState) (e : PyExc)
    (hp : parse_web_page rgx content = .error e) :
    fetch_page_data url ts ⟨.ok (status, content), re, fe⟩ rgx st
      = (⟨st.result_queue,
          st.error_queue ++
            [[("url", .str url), ("timestamp", .rat ts),
              ("duration", .rat re), ("status_code", .int status),
              ("error", .tup1 (.str (errToStr e)))]]⟩, fe) := by
  simp only [fetch_page_data]
  rw [hp]
  rfl

/-- Every single fetch attempt appends exactly one record to exactly one
of the two queues and leaves the other untouched. -/
theorem fetch_one_append (url : String) (ts : ℚ) (env : FetchEnv)
    (rgx : Option CompiledPattern) (st : FetchState) :
    ∃ r : PyDict,
      ((fetch_page_data url ts env rgx st).1.result_queue
          = st.result_queue ++ [r]
        ∧ (fetch_page_data url ts env rgx st).1.error_queue
          = st.error_queue)
      ∨ ((fetch_page_data url ts env rgx st).1.result_queue
          = st.result_queue
        ∧ (fetch_page_data url ts env rgx st).1.error_queue
          = st.error_queue ++ [r]) := by
  rcases env with ⟨net, re, fe⟩
  cases net with
  | error e =>
    rw [fetch_net_error]
    exact ⟨_, Or.inr ⟨rfl, rfl⟩⟩
  | ok p =>
    rcases p with ⟨status, content⟩
    rcases hp : parse_web_page rgx content with e | rf
    · rw [fetch_parse_error url ts status content re fe rgx st e hp]
      exact ⟨_, Or.inr ⟨rfl, rfl⟩⟩
    · rw [fetch_parse_ok url ts status content re fe rgx st rf hp]
      exact ⟨_, Or.inl ⟨rfl, rfl⟩⟩

theorem run_attempts_length (attempts : List Attempt) :
    ∀ st : FetchState,
      (run_attempts st attempts).result_queue.length
          + (run_attempts st attempts).error_queue.length
        = st.result_queue.length + st.error_queue.length
            + attempts.length := by
  induction attempts with
  | nil => intro st; simp [run_attempts]
  | cons a rest ih =>
    intro st
    have key := ih (fetch_page_data a.url a.startTs a.env a.regex st).1
    have hstep : run_attempts st (a :: rest)
        = run_attempts (fetch_page_data a.url a.startTs a.env a.regex st).1
            rest := rfl
    rcases fetch_one_append a.url a.startTs a.env a.regex st with
      ⟨r, ⟨h1, h2⟩ | ⟨h1, h2⟩⟩ <;>
    · rw [hstep, key, h1, h2]
      simp [List.length_append]
      omega

/-- Claim C1: every fetch attempt by `fetch_page_data` appends exactly one
record to exactly one of the two streams (success to the result queue,
failure to the error queue), never both and never zero; hence after `K`
fetch attempts across all targets, starting from empty streams, the sum of
the lengths of the two streams sum to `K`. -/
theorem C1_fetch_exactly_one_outcome :
    (∀ (url : String) (ts : ℚ) (env : FetchEnv)
       (rgx : Option CompiledPattern) (st : FetchState),
      ∃ r : PyDict,
        ((fetch_page_data url ts env rgx st).1.result_queue
            = st.result_queue ++ [r]
          ∧ (fetch_page_data url ts env rgx st).1.error_queue
            = st.error_queue)
        ∨ ((fetch_page_data url ts env rgx st).1.result_queue
            = st.result_queue
          ∧ (fetch_page_data url ts env rgx st).1.error_queue
            = st.error_queue ++ [r]))
    ∧ (∀ attempts : List Attempt,
        (run_attempts ⟨[], []⟩ attempts).result_queue.length
            + (run_attempts ⟨[], []⟩ attempts).error_queue.length
          = attempts.length) := by
  refine ⟨fetch_one_append, fun attempts => ?_⟩
  simpa using run_attempts_length attempts ⟨[], []⟩

/-- Claim C3: in every `website_poll` cycle with configured interval `i`
whose fetch returned duration `d`, the sleep before the next cycle is
exactly `max(0.1, i - d)`; in particular it never drops below the floor
constant `0.1`. -/
theorem C3_poll_sleep_formula :
    ∀ (interval : ℚ) (url : String) (ts : ℚ) (env : FetchEnv)
      (rgx : Option CompiledPattern) (st : FetchState),
      (website_poll_cycle interval url ts env rgx st).2
          = max 0.1 (interval - (fetch_page_data url ts env rgx st).2)
        ∧ 0.1 ≤ (website_poll_cycle interval url ts env rgx st).2 := by
  intro interval url ts env rgx st
  exact ⟨rfl, le_max_left _ _⟩

/-! ### Batch flusher -/

theorem drainLoop_spec {α : Type} (q : List α) :
    ∀ acc : List α, drainLoop acc q = (acc ++ q, []) := by
  induction q with
  | nil => intro acc; simp [drainLoop]
  | cons x xs ih => intro acc; simp [drainLoop, ih]

theorem drain_spec {α : Type} (q : List α) : drain q = (q, []) := by
  simp [drain, drainLoop_spec]

/-- Claim C2: a flush cycle that wakes with `M` items on the stream
removes exactly those `M` items as one batch in enqueue order, passes the
whole batch to the persistence sink in a single `write_to_db` call, and
afterwards the stream holds exactly the items enqueued after the drain
began (none of the drained ones). -/
theorem C2_flush_drains_all_in_order {α ε : Type}
    (execRow : α → Except ε Unit) (q pushedLater : List α)
    (hne : q ≠ []) (hok : write_to_db execRow q = .ok ()) :
    bulk_dump_cycle execRow q pushedLater =
      { calls := [q], queueAfter := pushedLater, outcome := .ok () } := by
  cases q with
  | nil => exact absurd rfl hne
  | cons x xs => simp [bulk_dump_cycle, drain_spec, hok]

/-- Witness for C2 at a concrete stream with two items and one concurrent
push. -/
theorem C2_witness :
    bulk_dump_cycle (fun _ : Nat => (Except.ok () : Except Unit Unit))
        [1, 2] [3]
      = { calls := [[1, 2]], queueAfter := [3], outcome := .ok () } :=
  C2_flush_drains_all_in_order _ [1, 2] [3] (by simp) rfl

/-- Claim C8: when persistence of a drained batch fails, the batch is
lost: the drained items are not re-queued (the stream afterwards holds
only the items pushed during the failed persistence call), there is no
retry (exactly one sink call), and the persistence error propagates out of
the flush cycle. -/
theorem C8_failed_persist_loses_batch {α ε : Type}
    (execRow : α → Except ε Unit) (q pushedLater : List α) (e : ε)
    (hne : q ≠ []) (hfail : write_to_db execRow q = .error e) :
    bulk_dump_cycle execRow q pushedLater =
      { calls := [q], queueAfter := pushedLater, outcome := .error e } := by
  cases q with
  | nil => exact absurd rfl hne
  | cons x xs => simp [bulk_dump_cycle, drain_spec, hfail]

/-- Witness for C8 at a concrete always-failing sink. -/
theorem C8_witness :
    bulk_dump_cycle (fun _ : Nat => (Except.error 7 : Except Nat Unit))
        [1] [2]
      = { calls := [[1]], queueAfter := [2], outcome := .error 7 } :=
  C8_failed_persist_loses_batch _ [1] [2] 7 (by simp) rfl

/-- Claim C9: a flush cycle that wakes with an empty stream makes no call
to the persistence sink and leaves the stream unchanged; moreover draining
an empty stream twice in a row yields two empty batches and never an
error. -/
theorem C9_empty_flush_no_sink_call {α ε : Type}
    (execRow : α → Except ε Unit) (pushedLater q : List α) (hq : q = []) :
    bulk_dump_cycle execRow q pushedLater
        = { calls := [], queueAfter := q, outcome := .ok () }
      ∧ drain q = ([], [])
      ∧ drain (drain q).2 = ([], []) := by
  subst hq
  exact ⟨rfl, rfl, rfl⟩

/-- Witness for C9 at a concrete empty stream. -/
theorem C9_witness :
    bulk_dump_cycle (fun _ : Nat => (Except.ok () : Except Unit Unit))
        [] [5]
        = { calls := [], queueAfter := [], outcome := .ok () }
      ∧ drain ([] : List Nat) = ([], [])
      ∧ drain (drain ([] : List Nat)).2 = ([], []) :=
  C9_empty_flush_no_sink_call _ [5] [] rfl

/-! ### Shape of failure and success records -/

/-- Counterexample to claim C4 as stated: for a concrete failed fetch
(a connection error, so the exception is raised before the body is read)
the record appended to the error stream has keys
`url, timestamp, error` only — it contains no `duration` field — and the
value stored under `error` is a 1-tuple wrapping the rendered string, not
the string itself. -/
theorem C4_counterexample :
    (fetch_page_data "http://x" 0
        ⟨.error ⟨"<class OSError>", "boom"⟩, 0, 1⟩ none ⟨[], []⟩).1.error_queue
        = [[("url", .str "http://x"), ("timestamp", .rat 0),
            ("error", .tup1 (.str "<class OSError>--boom"))]]
      ∧ dictGet "duration"
          [("url", .str "http://x"), ("timestamp", .rat 0),
           ("error", .tup1 (.str "<class OSError>--boom"))] = none
      ∧ dictGet "error"
          [("url", .str "http://x"), ("timestamp", .rat 0),
           ("error", .tup1 (.str "<class OSError>--boom"))]
        = some (.tup1 (.str "<class OSError>--boom")) := by
  exact ⟨rfl, rfl, rfl⟩

/-- Claim C4 (amended): for every fetch that fails before the body is
read, the error-stream record has exactly the fields
`url, timestamp, error`, with no duration; when the failure happens after
the body was read (a decode error under a configured pattern) the record
additionally carries `duration` and `status_code`.  In both cases the
value under `error` is a 1-tuple whose single element is the
human-readable rendering `f-string of type(error) ++ "--" ++ message`. -/
theorem C4_amended_failure_record_fields :
    ∀ (url : String) (ts : ℚ) (env : FetchEnv)
      (rgx : Option CompiledPattern) (st : FetchState),
      (∀ e : PyExc, env.net = .error e →
        (fetch_page_data url ts env rgx st).1.error_queue
          = st.error_queue ++
              [[("url", .str url), ("timestamp", .rat ts),
                ("error", .tup1 (.str (e.cls ++ "--" ++ e.msg)))]])
      ∧ (∀ (status : Nat) (content : List Nat) (e : PyExc),
          env.net = .ok (status, content) →
          parse_web_page rgx content = .error e →
          (fetch_page_data url ts env rgx st).1.error_queue
            = st.error_queue ++
                [[("url", .str url), ("timestamp", .rat ts),
                  ("duration", .rat env.readElapsed),
                  ("status_code", .int status),
                  ("error", .tup1 (.str (e.cls ++ "--" ++ e.msg)))]]) := by
  intro url ts env rgx st
  rcases env with ⟨net, re, fe⟩
  constructor
  · intro e henv
    cases henv
    rw [fetch_net_error]
    rfl
  · intro status content e henv hp
    cases henv
    rw [fetch_parse_error url ts status content re fe rgx st e hp]
    rfl

/-- Witness for C4 (amended): a concrete connection failure and a concrete
decode failure. -/
theorem C4_witness :
    (fetch_page_data "http://x" 0
        ⟨.error ⟨"<class OSError>", "boom"⟩, 0, 1⟩ none ⟨[], []⟩).1.error_queue
        = [] ++
            [[("url", .str "http://x"), ("timestamp", .rat 0),
              ("error", .tup1 (.str ("<class OSError>" ++ "--" ++ "boom")))]]
      ∧ (fetch_page_data "http://x" 0
          ⟨.ok (200, [255]), 2, 3⟩
          (some (re_compile_dotall (.char 'a'))) ⟨[], []⟩).1.error_queue
        = [] ++
            [[("url", .str "http://x"), ("timestamp", .rat 0),
              ("duration", .rat 2), ("status_code", .int 200),
              ("error", .tup1 (.str (unicodeDecodeError.cls ++ "--"
                ++ unicodeDecodeError.msg)))]] :=
  ⟨(C4_amended_failure_record_fields "http://x" 0
      ⟨.error ⟨"<class OSError>", "boom"⟩, 0, 1⟩ none ⟨[], []⟩).1
      ⟨"<class OSError>", "boom"⟩ rfl,
   (C4_amended_failure_record_fields "http://x" 0
      ⟨.ok (200, [255]), 2, 3⟩
      (some (re_compile_dotall (.char 'a'))) ⟨[], []⟩).2
      200 [255] unicodeDecodeError rfl rfl⟩

/-- Claim C5: `fetch_page_data` never propagates an exception: in the
embedding it is a total function into a state-and-duration pair, and in
particular a UTF-8 decoding failure of the body under a configured
pattern is converted into a failure record on the error stream (the
result stream is untouched) rather than crashing the poller. -/
theorem C5_decode_failure_is_probe_failure :
    ∀ (url : String) (ts : ℚ) (env : FetchEnv) (p : CompiledPattern)
      (st : FetchState) (status : Nat) (content : List Nat),
      env.net = .ok (status, content) →
      utf8Decode content = none →
      (fetch_page_data url ts env (some p) st).1.result_queue
          = st.result_queue
        ∧ (fetch_page_data url ts env (some p) st).1.error_queue
          = st.error_queue ++
              [[("url", .str url), ("timestamp", .rat ts),
                ("duration", .rat env.readElapsed),
                ("status_code", .int status),
                ("error", .tup1 (.str (errToStr unicodeDecodeError)))]] := by
  intro url ts env p st status content henv hdec
  rcases env with ⟨net, re, fe⟩
  cases henv
  have hp : parse_web_page (some p) content = .error unicodeDecodeError := by
    simp [parse_web_page, hdec]
  rw [fetch_parse_error url ts status content re fe (some p) st
        unicodeDecodeError hp]
  exact ⟨rfl, rfl⟩

/-- Witness for C5: a body consisting of the single byte `0xFF` (not
valid UTF-8) under a configured pattern. -/
theorem C5_witness :
    (fetch_page_data "u" 0 ⟨.ok (200, [255]), 2, 3⟩
        (some (re_compile_dotall (.char 'a'))) ⟨[], []⟩).1.result_queue
        = []
      ∧ (fetch_page_data "u" 0 ⟨.ok (200, [255]), 2, 3⟩
          (some (re_compile_dotall (.char 'a'))) ⟨[], []⟩).1.error_queue
        = [] ++
            [[("url", .str "u"), ("timestamp", .rat 0),
              ("duration", .rat 2), ("status_code", .int 200),
              ("error", .tup1 (.str (errToStr unicodeDecodeError)))]] :=
  C5_decode_failure_is_probe_failure "u" 0 ⟨.ok (200, [255]), 2, 3⟩
    (re_compile_dotall (.char 'a')) ⟨[], []⟩ 200 [255] rfl rfl

/-- Claim C10: every record appended to the result stream carries the
`regex_found` key — with value `None` when no pattern is configured, never
omitted — and every named parameter of `DBHelper.RESULT_SQL` is a present
key of the record, so the insert can bind all its parameters. -/
theorem C10_result_record_always_has_regex_found :
    ∀ (url : String) (ts : ℚ) (env : FetchEnv)
      (rgx : Option CompiledPattern) (st : FetchState)
      (status : Nat) (content : List Nat) (rf : Option Bool),
      env.net = .ok (status, content) →
      parse_web_page rgx content = .ok rf →
      ∃ r : PyDict,
        (fetch_page_data url ts env rgx st).1.result_queue
            = st.result_queue ++ [r]
          ∧ dictGet "regex_found" r = some (optBoolVal rf)
          ∧ (rgx = none → dictGet "regex_found" r = some Value.pyNone)
          ∧ ∀ k ∈ result_sql_params, (dictGet k r).isSome = true := by
  intro url ts env rgx st status content rf henv hp
  rcases env with ⟨net, re, fe⟩
  cases henv
  rw [fetch_parse_ok url ts status content re fe rgx st rf hp]
  refine ⟨_, rfl, rfl, ?_, ?_⟩
  · intro hnone
    subst hnone
    have : rf = none := by
      have := hp
      simp [parse_web_page] at this
      exact this.symm
    subst this
    rfl
  · intro k hk
    fin_cases hk <;> rfl

/-- Witness for C10: a concrete successful fetch with no configured
pattern still carries `regex_found` (as `None`). -/
theorem C10_witness :
    ∃ r : PyDict,
      (fetch_page_data "u" 0 ⟨.ok (200, [97]), 1, 2⟩ none
            ⟨[], []⟩).1.result_queue
          = [] ++ [r]
        ∧ dictGet "regex_found" r = some (optBoolVal none)
        ∧ ((none : Option CompiledPattern) = none →
            dictGet "regex_found" r = some Value.pyNone)
        ∧ ∀ k ∈ result_sql_params, (dictGet k r).isSome = true :=
  C10_result_record_always_has_regex_found "u" 0 ⟨.ok (200, [97]), 1, 2⟩
    none ⟨[], []⟩ 200 [97] none rfl rfl

/-! ### Pattern-match semantics and timeout wiring -/

/-- Claim C6: for every successful fetch with a configured pattern `r`
(compiled with `re.DOTALL`), the `regex_found` value of the result record
is `True` exactly when `r` matches somewhere in the decoded body —
unanchored (any start position) and with `.` allowed to match the newline
character, so the pattern may span newlines — and `False` otherwise; with
no configured pattern the value is `None`. -/
theorem C6_pattern_match_semantics :
    ∀ (url : String) (ts : ℚ) (env : FetchEnv) (r : Reg) (st : FetchState)
      (status : Nat) (content : List Nat) (s : List Char),
      env.net = .ok (status, content) →
      utf8Decode content = some s →
      (∃ rec : PyDict,
        (fetch_page_data url ts env (some (re_compile_dotall r))
            st).1.result_queue
          = st.result_queue ++ [rec]
        ∧ dictGet "regex_found" rec = some (.bool (search true r s))
        ∧ (search true r s = true ↔
            ∃ pre mid post, s = pre ++ mid ++ post ∧ RMatch true r mid))
      ∧ (∃ rec2 : PyDict,
          (fetch_page_data url ts env none st).1.result_queue
            = st.result_queue ++ [rec2]
          ∧ dictGet "regex_found" rec2 = some Value.pyNone) := by
  intro url ts env r st status content s henv hdec
  rcases env with ⟨net, re, fe⟩
  cases henv
  constructor
  · have hp : parse_web_page (some (re_compile_dotall r)) content
        = .ok (some (search true r s)) := by
      cases hsearch : search true r s <;>
        simp [parse_web_page, re_compile_dotall, hdec, hsearch]
    rw [fetch_parse_ok url ts status content re fe
          (some (re_compile_dotall r)) st (some (search true r s)) hp]
    exact ⟨_, rfl, rfl, search_iff⟩
  · have hp0 : parse_web_page none content = .ok none := rfl
    rw [fetch_parse_ok url ts status content re fe none st none hp0]
    exact ⟨_, rfl, rfl⟩

/-- Witness for C6: the pattern `a.b` compiled with `DOTALL` against the
body `"a\nb"` (bytes `[97, 10, 98]`): the dot matches the newline, so
`regex_found` is `True`. -/
theorem C6_witness :
    (∃ rec : PyDict,
      (fetch_page_data "u" 0 ⟨.ok (200, [97, 10, 98]), 1, 2⟩
          (some (re_compile_dotall
            (.cat (.char 'a') (.cat .dot (.char 'b')))))
          ⟨[], []⟩).1.result_queue
        = [] ++ [rec]
      ∧ dictGet "regex_found" rec
        = some (.bool (search true
            (.cat (.char 'a') (.cat .dot (.char 'b'))) ['a', '\n', 'b']))
      ∧ (search true (.cat (.char 'a') (.cat .dot (.char 'b')))
            ['a', '\n', 'b'] = true ↔
          ∃ pre mid post, ['a', '\n', 'b'] = pre ++ mid ++ post
            ∧ RMatch true (.cat (.char 'a') (.cat .dot (.char 'b'))) mid))
    ∧ (∃ rec2 : PyDict,
        (fetch_page_data "u" 0 ⟨.ok (200, [97, 10, 98]), 1, 2⟩ none
            ⟨[], []⟩).1.result_queue
          = [] ++ [rec2]
        ∧ dictGet "regex_found" rec2 = some Value.pyNone) :=
  C6_pattern_match_semantics "u" 0 ⟨.ok (200, [97, 10, 98]), 1, 2⟩
    (.cat (.char 'a') (.cat .dot (.char 'b'))) ⟨[], []⟩ 200 [97, 10, 98]
    ['a', '\n', 'b'] rfl rfl

/-- Claim C7 fails on the code: `build_tasks` does not forward the
`web_timeout` given to `poll` (it only reaches the session-level
`ClientTimeout`), so every polling task invokes the fetcher with
the hard-coded default per-request timeout `4` of `website_poll`, which
`fetch_page_data` passes to `session.get` — here evaluated at
`web_timeout = 10`. -/
theorem C7_web_timeout_not_forwarded :
    ((poll_setup 10 [⟨"http://a", 5, none⟩]).tasks.map PollTask.timeout
        = [4])
      ∧ (poll_setup 10 [⟨"http://a", 5, none⟩]).sessionTimeout
        = ⟨none, some 10, some 10⟩
      ∧ decide ((4 : ℚ) = 10) = false
      ∧ ∀ (wt : ℚ) (urldb : List UrlEntry),
          (poll_setup wt urldb).tasks.map PollTask.timeout
            = urldb.map (fun _ => 4) := by
  refine ⟨rfl, rfl, by decide, ?_⟩
  intro wt urldb
  show (build_tasks urldb).map PollTask.timeout = urldb.map fun _ => 4
  rw [build_tasks, List.map_map]
  rfl

end AsyncWebMon
